import Mathlib

/-!
Verification development for the PLANEXA floor-plan generator.

The repository ships the rendering/controller client `src/frontend/script.js`;
the backend layout engine (Flask app, `ml_engine`) is documented in the README
but its code is not under `src/`, so the generator side is modelled from the
specification (each such definition says so in its doc comment).

Conventions: JavaScript numbers are modelled as rationals (`ℚ`), absent or
unparseable values as `Option`, and JavaScript falsy-`||` fallbacks explicitly.
-/

namespace Planexa

/-- JavaScript falsy-or on a parsed integer: models `parseInt(v) || d`, which
yields `d` both when parsing failed (`NaN`, modelled as `none`) and when the
parse produced `0` (falsy). -/
def jsOrInt (v : Option Int) (d : Int) : Int :=
  match v with
  | none => d
  | some n => if n = 0 then d else n

/-- JavaScript falsy-or on a numeric field: models `v || d` where an absent
field (`undefined`, modelled as `none`) or the value `0` falls back to `d`. -/
def jsOrRat (v : Option ℚ) (d : ℚ) : ℚ :=
  match v with
  | none => d
  | some q => if q = 0 then d else q

/-- JavaScript falsy-or on a string: models `s || d` (empty string is falsy). -/
def jsOrStr (s d : String) : String :=
  if s = "" then d else s

/-- Request payload assembled by the client, matching the object literal
returned by `getInputSpecifications` (src/frontend/script.js:174-182). -/
structure Specs where
  width : Int
  length : Int
  floors : Int
  rooms : List (String × Int)
  style : String
  include_furniture : Bool
  include_windows : Bool
  deriving DecidableEq, Repr

/-- Embeds `getInputSpecifications` (src/frontend/script.js:165-183).  The raw
text fields are modelled post-`parseInt`: `none` stands for an absent or
non-numeric field (`parseInt` returned `NaN`). -/
def getInputSpecifications (widthRaw lengthRaw floorsRaw : Option Int)
    (roomInputs : List (String × Option Int)) (styleVal : String)
    (furn win : Bool) : Specs :=
  let roomReqs := roomInputs.map (fun i => (i.1, jsOrInt i.2 1))
  { width := jsOrInt widthRaw 12
    length := jsOrInt lengthRaw 10
    floors := jsOrInt floorsRaw 1
    rooms := if roomReqs.length > 0 then roomReqs
             else [("bedroom", 2), ("living", 1)]
    style := jsOrStr styleVal "modern"
    include_furniture := furn
    include_windows := win }

/-- Pixels per footprint unit used by the rendering client
(`const scale = 50` in renderRoom/renderWall, and `* 50` in the viewBox). -/
def pxScale : ℚ := 50

/-- Room record as consumed by `renderRoom`: each geometric field may be
absent in the payload, hence `Option`. -/
structure RoomData where
  x : Option ℚ
  y : Option ℚ
  width : Option ℚ
  length : Option ℚ
  deriving DecidableEq, Repr

/-- Pixel-space rectangle produced by the renderer. -/
structure PxRect where
  x : ℚ
  y : ℚ
  w : ℚ
  h : ℚ
  deriving DecidableEq, Repr

/-- Embeds the pixel computation of `renderRoom` (src/frontend/script.js:313-316):
`(room.x || 1) * scale`, `(room.y || 1) * scale`, `(room.width || 3) * scale`,
`(room.length || 3) * scale`. -/
def renderRoomPx (r : RoomData) : PxRect :=
  { x := jsOrRat r.x 1 * pxScale
    y := jsOrRat r.y 1 * pxScale
    w := jsOrRat r.width 3 * pxScale
    h := jsOrRat r.length 3 * pxScale }

/-- Wall record as consumed by `renderWall`; all four endpoint fields are read
directly, with no fallback. -/
structure WallData where
  x1 : ℚ
  y1 : ℚ
  x2 : ℚ
  y2 : ℚ
  deriving DecidableEq, Repr

/-- Embeds the pixel computation of `renderWall` (src/frontend/script.js:361-372). -/
def renderWallPx (w : WallData) : ℚ × ℚ × ℚ × ℚ :=
  (w.x1 * pxScale, w.y1 * pxScale, w.x2 * pxScale, w.y2 * pxScale)

/-- Embeds the viewBox extent set by `renderFloorPlan`
(src/frontend/script.js:217): `0 0 ${width * 50} ${length * 50}`. -/
def viewBoxPx (width length : ℚ) : ℚ × ℚ :=
  (width * pxScale, length * pxScale)

/-- The five per-category fields `updateChart` reads from the metrics object;
each may be absent (`undefined`). -/
structure ChartMetrics where
  living_area : Option ℚ
  bedroom_area : Option ℚ
  kitchen_area : Option ℚ
  bathroom_area : Option ℚ
  circulation_area : Option ℚ
  deriving DecidableEq, Repr

/-- The five chart dataset slots, in the order of the array literal in
`updateChart`. -/
structure ChartData where
  living : ℚ
  bedrooms : ℚ
  kitchen : ℚ
  bathrooms : ℚ
  circulation : ℚ
  deriving DecidableEq, Repr

/-- Embeds `updateChart` (src/frontend/script.js:519-531): each slot is
`metrics.field || default`. -/
def updateChart (m : ChartMetrics) : ChartData :=
  { living := jsOrRat m.living_area 30
    bedrooms := jsOrRat m.bedroom_area 40
    kitchen := jsOrRat m.kitchen_area 15
    bathrooms := jsOrRat m.bathroom_area 10
    circulation := jsOrRat m.circulation_area 5 }

/-- Building-level metrics of the output contract:
`{total_area, total_rooms, floors, average_efficiency}`. -/
structure BuildingMetrics where
  total_area : ℚ
  total_rooms : ℕ
  floors : ℕ
  average_efficiency : ℚ
  deriving DecidableEq, Repr

/-- The building-level metrics object carries none of the five per-category
fields `updateChart` reads, so in JavaScript each such access yields
`undefined`. -/
def chartFieldsOfBuildingMetrics (_b : BuildingMetrics) : ChartMetrics :=
  ⟨none, none, none, none, none⟩

/-! Geometry kernel.  The kernel itself is backend code not under `src/`;
these definitions follow the contracts of spec §4.1 verbatim. -/

/-- Axis-aligned rectangle, coordinates in footprint units. -/
structure Rect where
  x : ℚ
  y : ℚ
  w : ℚ
  h : ℚ
  deriving DecidableEq, Repr

/-- Modelled from the spec: §4.1 `overlaps(rectA, rectB) -> bool`, strict
interior overlap; a shared boundary is not overlap.  (Geometry kernel source
is not under `src/`.) -/
def overlaps (a b : Rect) : Bool :=
  decide (a.x < b.x + b.w) && decide (b.x < a.x + a.w) &&
  decide (a.y < b.y + b.h) && decide (b.y < a.y + a.h)

/-- Modelled from the spec: §4.1 `contains(outer, inner) -> bool`. -/
def contains (outer inner : Rect) : Bool :=
  decide (outer.x ≤ inner.x) && decide (inner.x + inner.w ≤ outer.x + outer.w) &&
  decide (outer.y ≤ inner.y) && decide (inner.y + inner.h ≤ outer.y + outer.h)

/-- Separation: the propositional complement of `overlaps`. -/
def Sep (a b : Rect) : Prop :=
  b.x + b.w ≤ a.x ∨ a.x + a.w ≤ b.x ∨ b.y + b.h ≤ a.y ∨ a.y + a.h ≤ b.y

/-! Room catalog and deterministic placement order (spec §4.2, §4.4).  The
backend catalog/solver sources are not under `src/`; all of the following is
modelled from the spec. -/

inductive RoomType
  | bedroom
  | living
  | kitchen
  | bathroom
  | office
  | hallway
  | stairs
  deriving DecidableEq, Repr

/-- Parses the room-type strings of the input contract; unknown strings are
rejected (§4.2 `UnknownRoomType`, §7 `InvalidInput`). -/
def parseRoomType (s : String) : Option RoomType :=
  if s = "bedroom" then some .bedroom
  else if s = "living" then some .living
  else if s = "kitchen" then some .kitchen
  else if s = "bathroom" then some .bathroom
  else if s = "office" then some .office
  else if s = "hallway" then some .hallway
  else if s = "stairs" then some .stairs
  else none

/-- Modelled from the spec: the §4.4 canonical ordering of room types used as
deterministic tie-break, `stairs > living > kitchen > bedroom > bathroom >
office > hallway` (rank 0 is highest priority). -/
def typeRank : RoomType → ℕ
  | .stairs => 0
  | .living => 1
  | .kitchen => 2
  | .bedroom => 3
  | .bathroom => 4
  | .office => 5
  | .hallway => 6

/-- Modelled from the spec: §4.2 catalog minimum areas (catalog source absent
from src/).  The bedroom entry is fixed at 9 by Scenario B of §8. -/
def minArea : RoomType → ℚ
  | .bedroom => 9
  | .living => 12
  | .kitchen => 6
  | .bathroom => 4
  | .office => 6
  | .hallway => 2
  | .stairs => 4

/-- Modelled from the spec: default target dimensions derived from the catalog
min-area and aspect range (§4.4 "target area/aspect ratio"). -/
def defaultDims : RoomType → ℚ × ℚ
  | .bedroom => (3, 3)
  | .living => (4, 3)
  | .kitchen => (3, 2)
  | .bathroom => (2, 2)
  | .office => (3, 2)
  | .hallway => (2, 1)
  | .stairs => (2, 2)

/-- Modelled from the spec: one direction of the §4.2 affinity preferences;
unlisted pairs are neutral. -/
def affinityBase : RoomType → RoomType → Int
  | .bedroom, .bedroom => 2
  | .bedroom, .bathroom => 1
  | .bedroom, .kitchen => -1
  | .kitchen, .living => 2
  | .kitchen, .bathroom => -2
  | .living, .hallway => 1
  | _, _ => 0

/-- Modelled from the spec: affinity table, symmetric by construction as §4.2
requires (`affinity(a,b) == affinity(b,a)` enforced at construction time). -/
def affinity (a b : RoomType) : Int :=
  affinityBase a b + affinityBase b a

/-- A room request not yet assigned coordinates: type, sequence id and target
dimensions. -/
structure Placeholder where
  ty : RoomType
  seq : ℕ
  tw : ℚ
  th : ℚ
  deriving DecidableEq, Repr

/-- Required area of a placeholder. -/
def Placeholder.area (p : Placeholder) : ℚ := p.tw * p.th

/-- Sort key realising the §4.4 ordering: descending required area first,
then the canonical type ranking, then the sequence id; the dimensions come
last so that the key is injective. -/
def placeKey (p : Placeholder) : Lex (ℚ × Lex (ℕ × Lex (ℕ × Lex (ℚ × ℚ)))) :=
  toLex (-(p.tw * p.th), toLex (typeRank p.ty, toLex (p.seq, toLex (p.tw, p.th))))

/-- The deterministic placement order of spec §4.4. -/
def placeOrder (p q : Placeholder) : Prop :=
  placeKey p ≤ placeKey q

instance : DecidableRel placeOrder :=
  fun p q => inferInstanceAs (Decidable (placeKey p ≤ placeKey q))

/-! Placement solver (spec §4.4), modelled from the spec. -/

/-- A placed room instance. -/
structure Room where
  ty : RoomType
  seq : ℕ
  rect : Rect
  deriving DecidableEq, Repr

/-- Modelled from the spec: fit test of §4.4 step 1; target dimensions must be
positive (§4.1 rejects zero-area rectangles) and fit the free rectangle. -/
def fits (p : Placeholder) (f : Rect) : Bool :=
  decide (0 < p.tw) && decide (0 < p.th) && decide (p.tw ≤ f.w) && decide (p.th ≤ f.h)

/-- Shared-edge adjacency of two rectangles (they touch along a segment of
positive length). -/
def adjacentRects (a b : Rect) : Bool :=
  ((decide (a.x + a.w = b.x) || decide (b.x + b.w = a.x)) &&
    decide (a.y < b.y + b.h) && decide (b.y < a.y + a.h)) ||
  ((decide (a.y + a.h = b.y) || decide (b.y + b.h = a.y)) &&
    decide (a.x < b.x + b.w) && decide (b.x < a.x + a.w))

/-- Modelled from the spec: §4.4 step 1 scoring, the total affinity of the
already placed rooms that would become adjacent to `p` carved at the top-left
corner of `f`. -/
def candScore (p : Placeholder) (placed : List Room) (f : Rect) : Int :=
  (placed.filter (fun r => adjacentRects (Rect.mk f.x f.y p.tw p.th) r.rect)).foldl
    (fun s r => s + affinity p.ty r.ty) 0

/-- Leftover area of a candidate free rectangle (best-fit tie-break). -/
def leftoverArea (p : Placeholder) (f : Rect) : ℚ := f.w * f.h - p.tw * p.th

/-- Modelled from the spec: candidate comparison of §4.4 step 1 — highest
adjacency score, ties by smallest leftover area, exact ties keep the earlier
arena entry. -/
def betterCand (p : Placeholder) (placed : List Room) (a b : Rect) : Bool :=
  decide (candScore p placed b < candScore p placed a) ||
  (decide (candScore p placed a = candScore p placed b) &&
    decide (leftoverArea p a < leftoverArea p b))

/-- Selects the free rectangle of §4.4 step 1 among the fitting candidates. -/
def chooseBest (p : Placeholder) (placed : List Room) : List Rect → Option Rect
  | [] => none
  | c :: rest =>
    some (rest.foldl (fun best x => if betterCand p placed x best then x else best) c)

/-- Distance from square of a piece (used to pick the more balanced cut). -/
def squareBadness (r : Rect) : ℚ := max (r.w - r.h) (r.h - r.w)

/-- Modelled from the spec: §4.4 step 2.  The room is carved at the top-left
corner of the chosen free rectangle and the remainder is split by the
guillotine cut producing the more balanced (closer to square) two pieces. -/
def splitPieces (f : Rect) (rw rh : ℚ) : Rect × Rect :=
  let s1 : Rect × Rect :=
    (⟨f.x + rw, f.y, f.w - rw, f.h⟩, ⟨f.x, f.y + rh, rw, f.h - rh⟩)
  let s2 : Rect × Rect :=
    (⟨f.x + rw, f.y, f.w - rw, rh⟩, ⟨f.x, f.y + rh, f.w, f.h - rh⟩)
  if max (squareBadness s1.1) (squareBadness s1.2) ≤
      max (squareBadness s2.1) (squareBadness s2.2) then s1 else s2

/-- Zero-area rectangles are invalid (§4.1) and never enter the free arena. -/
def posRect (r : Rect) : Bool := decide (0 < r.w) && decide (0 < r.h)

/-- Solver state: the free-rectangle arena and the rooms placed so far. -/
structure SolverState where
  free : List Rect
  placed : List Room
  deriving DecidableEq, Repr

/-- Modelled from the spec: one placement step (§4.4 steps 1-2): select the
best fitting free rectangle, carve the room at its top-left corner, return the
positive-area guillotine remainder pieces to the arena. -/
def placeStep (st : SolverState) (p : Placeholder) : Option SolverState :=
  match chooseBest p st.placed (st.free.filter (fits p)) with
  | none => none
  | some f =>
    let pcs := splitPieces f p.tw p.th
    some { free := st.free.erase f ++ [pcs.1, pcs.2].filter posRect
           placed := ⟨p.ty, p.seq, ⟨f.x, f.y, p.tw, p.th⟩⟩ :: st.placed }

/-- Modelled from the spec: the §4.4 placement loop, failing with the
offending room type when no free rectangle can host a placeholder. -/
def runPass (st : SolverState) : List Placeholder → Except RoomType SolverState
  | [] => .ok st
  | p :: ps =>
    match placeStep st p with
    | none => .error p.ty
    | some st1 => runPass st1 ps

/-- Modelled from the spec: §4.4 step 3 proportional shrink of one room
(fixed 3/4 linear factor), floored at the catalog minimum area. -/
def shrinkPlaceholder (p : Placeholder) : Placeholder :=
  if minArea p.ty ≤ (3 / 4 * p.tw) * (3 / 4 * p.th) then
    { p with tw := 3 / 4 * p.tw, th := 3 / 4 * p.th }
  else p

/-- Modelled from the spec: the controlled back-track shrinks the two largest
already-placed rooms; on the descending-ordered list these are the first two. -/
def shrinkTwoLargest : List Placeholder → List Placeholder
  | a :: b :: rest => shrinkPlaceholder a :: shrinkPlaceholder b :: rest
  | l => l

/-- Modelled from the spec: §4.6, the free arena of a floor that received a
pinned room is the footprint partitioned around the pinned rectangle. -/
def carveAround (outer r : Rect) : List Rect :=
  [⟨outer.x, outer.y, r.x - outer.x, outer.h⟩,
   ⟨r.x + r.w, outer.y, outer.x + outer.w - (r.x + r.w), outer.h⟩,
   ⟨r.x, outer.y, r.w, r.y - outer.y⟩,
   ⟨r.x, r.y + r.h, r.w, outer.y + outer.h - (r.y + r.h)⟩].filter posRect

/-- Initial solver state; a pinned rectangle must be positive (§4.1) and lie
inside the footprint, otherwise the pin cannot be honoured (§4.6). -/
def initState (ft : Rect) (pinned : Option Room) : Option SolverState :=
  match pinned with
  | none => some ⟨[ft], []⟩
  | some r =>
    if posRect r.rect && contains ft r.rect then some ⟨carveAround ft r.rect, [r]⟩
    else none

/-- Per-floor solve failure: infeasible placement naming the offending type
(§4.4) or a pinned stairs rectangle the floor cannot accommodate (§4.6). -/
inductive SolveErr
  | infeasible (ty : RoomType)
  | stairMisfit
  deriving DecidableEq, Repr

/-- Modelled from the spec: the per-floor solver (§4.4): one pass over the
ordered placeholders, then a single bounded shrink retry on failure. -/
def solveFloor (ft : Rect) (pinned : Option Room) (ordered : List Placeholder) :
    Except SolveErr (List Room) :=
  match initState ft pinned with
  | none => .error .stairMisfit
  | some st0 =>
    match runPass st0 ordered with
    | .ok st => .ok st.placed
    | .error _ =>
      match runPass st0 (shrinkTwoLargest ordered) with
      | .ok st => .ok st.placed
      | .error ty => .error (.infeasible ty)

/-- The invariant maintained by the placement loop. -/
def StateInv (st : SolverState) : Prop :=
  List.Pairwise Sep (st.placed.map Room.rect ++ st.free)


/-! Circulation builder (§4.5), metrics calculator (§4.7) and multi-floor
coordinator (§4.6), all modelled from the spec (backend source absent). -/

/-- Axis-aligned wall/window segment of the output contract. -/
structure Wall where
  x1 : ℚ
  y1 : ℚ
  x2 : ℚ
  y2 : ℚ
  deriving DecidableEq, Repr

/-- Door position of the output contract. -/
structure Door where
  x : ℚ
  y : ℚ
  deriving DecidableEq, Repr

/-- All unordered pairs of list elements, in list order. -/
def allPairs {α : Type} : List α → List (α × α)
  | [] => []
  | x :: xs => xs.map (fun y => (x, y)) ++ allPairs xs

/-- Modelled from the spec: §4.5, the interior wall along the shared edge of
two adjacent rooms, when the shared segment has positive length. -/
def sharedWall (a b : Rect) : Option Wall :=
  if a.x + a.w = b.x ∧ max a.y b.y < min (a.y + a.h) (b.y + b.h) then
    some ⟨b.x, max a.y b.y, b.x, min (a.y + a.h) (b.y + b.h)⟩
  else if b.x + b.w = a.x ∧ max a.y b.y < min (a.y + a.h) (b.y + b.h) then
    some ⟨a.x, max a.y b.y, a.x, min (a.y + a.h) (b.y + b.h)⟩
  else if a.y + a.h = b.y ∧ max a.x b.x < min (a.x + a.w) (b.x + b.w) then
    some ⟨max a.x b.x, b.y, min (a.x + a.w) (b.x + b.w), b.y⟩
  else if b.y + b.h = a.y ∧ max a.x b.x < min (a.x + a.w) (b.x + b.w) then
    some ⟨max a.x b.x, a.y, min (a.x + a.w) (b.x + b.w), a.y⟩
  else none

/-- Length of an axis-aligned wall segment. -/
def wallLen (w : Wall) : ℚ := max (w.x2 - w.x1) (w.y2 - w.y1)

/-- Modelled from the spec: §4.5, exterior walls along the footprint boundary
plus an interior wall along every shared edge of adjacent rooms. -/
def deriveWalls (ft : Rect) (rooms : List Room) : List Wall :=
  [⟨ft.x, ft.y, ft.x + ft.w, ft.y⟩,
   ⟨ft.x + ft.w, ft.y, ft.x + ft.w, ft.y + ft.h⟩,
   ⟨ft.x + ft.w, ft.y + ft.h, ft.x, ft.y + ft.h⟩,
   ⟨ft.x, ft.y + ft.h, ft.x, ft.y⟩] ++
  (allPairs rooms).filterMap (fun pr => sharedWall pr.1.rect pr.2.rect)

/-- Minimum door width (§4.5; the client draws doors 0.9 units wide). -/
def minDoorWidth : ℚ := 9 / 10

/-- Modelled from the spec: §4.5, a door at the midpoint of every shared wall
segment of at least the minimum door width between rooms whose affinity is
non-negative. -/
def deriveDoors (rooms : List Room) : List Door :=
  (allPairs rooms).filterMap (fun pr =>
    if 0 ≤ affinity pr.1.ty pr.2.ty then
      match sharedWall pr.1.rect pr.2.rect with
      | some w =>
        if minDoorWidth ≤ wallLen w then
          some ⟨(w.x1 + w.x2) / 2, (w.y1 + w.y2) / 2⟩
        else none
      | none => none
    else none)

/-- Window length threshold (§4.5, default 2 units). -/
def windowThreshold : ℚ := 2

/-- Modelled from the spec: §4.5, one window per exterior wall segment of
length at least the threshold for rooms whose type is not stairs or hallway;
the window spans the middle half of the edge. -/
def roomWindows (ft : Rect) (r : Room) : List Wall :=
  if r.ty = .stairs ∨ r.ty = .hallway then []
  else
    (if r.rect.y = ft.y ∧ windowThreshold ≤ r.rect.w then
      [⟨r.rect.x + r.rect.w / 4, ft.y, r.rect.x + 3 * r.rect.w / 4, ft.y⟩]
     else []) ++
    (if r.rect.y + r.rect.h = ft.y + ft.h ∧ windowThreshold ≤ r.rect.w then
      [⟨r.rect.x + r.rect.w / 4, ft.y + ft.h, r.rect.x + 3 * r.rect.w / 4, ft.y + ft.h⟩]
     else []) ++
    (if r.rect.x = ft.x ∧ windowThreshold ≤ r.rect.h then
      [⟨ft.x, r.rect.y + r.rect.h / 4, ft.x, r.rect.y + 3 * r.rect.h / 4⟩]
     else []) ++
    (if r.rect.x + r.rect.w = ft.x + ft.w ∧ windowThreshold ≤ r.rect.h then
      [⟨ft.x + ft.w, r.rect.y + r.rect.h / 4, ft.x + ft.w, r.rect.y + 3 * r.rect.h / 4⟩]
     else [])

/-- Windows of a floor, honouring the `include_windows` option. -/
def deriveWindows (ft : Rect) (rooms : List Room) (inc : Bool) : List Wall :=
  if inc then rooms.foldr (fun r acc => roomWindows ft r ++ acc) [] else []

/-- Per-floor metrics of the output contract. -/
structure FloorMetrics where
  total_area : ℚ
  room_count : ℕ
  efficiency : ℚ
  circulation_area : ℚ
  deriving DecidableEq, Repr, Inhabited

/-- Area of a placed room. -/
def roomArea (r : Room) : ℚ := r.rect.w * r.rect.h

/-- Sum of the room areas of a floor. -/
def sumAreas (rooms : List Room) : ℚ := (rooms.map roomArea).sum

/-- Modelled from the spec: the §4.7 metrics calculator — total area, room
count, efficiency `100 * (sum of room areas) / total_area` clamped to
[0,100], and `circulation_area = total_area - sum of room areas`. -/
def floorMetrics (ft : Rect) (rooms : List Room) : FloorMetrics :=
  { total_area := ft.w * ft.h
    room_count := rooms.length
    efficiency := max 0 (min 100 (100 * sumAreas rooms / (ft.w * ft.h)))
    circulation_area := ft.w * ft.h - sumAreas rooms }

/-- Per-floor record of the output contract (§6). -/
structure FloorOut where
  floor_number : ℕ
  width : ℚ
  length : ℚ
  rooms : List Room
  walls : List Wall
  windows : List Wall
  doors : List Door
  metrics : FloorMetrics
  deriving DecidableEq, Repr

instance : Inhabited FloorOut :=
  ⟨⟨0, 0, 0, [], [], [], [], default⟩⟩

/-- Builds one finalized floor: circulation derivation (§4.5) must not alter
the room geometry, so it consumes the solver's rooms unchanged. -/
def buildFloor (ft : Rect) (k : ℕ) (rooms : List Room) (incWin : Bool) : FloorOut :=
  { floor_number := k
    width := ft.w
    length := ft.h
    rooms := rooms
    walls := deriveWalls ft rooms
    windows := deriveWindows ft rooms incWin
    doors := deriveDoors rooms
    metrics := floorMetrics ft rooms }

/-- Modelled from the spec: §4.7 building-level aggregation — sum per-floor
areas, count rooms and floors, average efficiency across floors. -/
def buildingMetrics (fls : List FloorOut) : BuildingMetrics :=
  { total_area := (fls.map (fun f => f.metrics.total_area)).sum
    total_rooms := (fls.map (fun f => f.rooms.length)).sum
    floors := fls.length
    average_efficiency :=
      (fls.map (fun f => f.metrics.efficiency)).sum / (fls.length : ℚ) }

/-- A generated building: a pure output value (§3 lifecycle). -/
structure Building where
  floors : List FloorOut
  metrics : BuildingMetrics
  deriving DecidableEq, Repr

/-- Error taxonomy of §7. -/
inductive GenError
  | invalidInput (msg : String)
  | layoutInfeasible (ty : RoomType) (floor : ℕ)
  | stairAlignment (floor : ℕ)
  deriving DecidableEq, Repr

/-- Generation request of the input contract (§6), after transport decoding. -/
structure Input where
  width : ℚ
  length : ℚ
  floors : ℕ
  rooms : List (String × ℕ)
  style : String
  include_windows : Bool
  deriving DecidableEq, Repr

/-- Parses every requested room type; any unknown type rejects the input. -/
def parseReqs : List (String × ℕ) → Option (List (RoomType × ℕ))
  | [] => some []
  | (s, c) :: rest =>
    match parseRoomType s, parseReqs rest with
    | some ty, some r => some ((ty, c) :: r)
    | _, _ => none

/-- Placeholders for the non-stairs requests, sequence ids in request order,
target dimensions from the catalog. -/
def expandCore : List (RoomType × ℕ) → ℕ → List Placeholder
  | [], _ => []
  | (ty, c) :: rest, seq0 =>
    (List.range c).map (fun i =>
      ⟨ty, seq0 + i, (defaultDims ty).1, (defaultDims ty).2⟩) ++
    expandCore rest (seq0 + c)

/-- Modelled from the spec: request expansion.  §4.6 speaks of "the stairs
placeholder": stairs contribute one shared placeholder per floor whatever the
requested count, other types contribute one placeholder per requested unit. -/
def expand (reqs : List (RoomType × ℕ)) : List Placeholder :=
  let base := expandCore (reqs.filter (fun rq => decide (¬ rq.1 = RoomType.stairs))) 0
  if reqs.any (fun rq => decide (rq.1 = RoomType.stairs ∧ 1 ≤ rq.2)) then
    base ++ [⟨.stairs, base.length, (defaultDims .stairs).1, (defaultDims .stairs).2⟩]
  else base

/-- Number of floors actually generated (at least one). -/
def numFloors (inp : Input) : ℕ := max 1 inp.floors

/-- Modelled from the spec: §4.6, solve floors 2..N with the pinned stairs
rectangle of floor 1; errors carry the conflicting floor index (§7). -/
def solveRest (ft : Rect) (pin : Option Room) (ordered : List Placeholder) :
    List ℕ → Except GenError (List (List Room))
  | [] => .ok []
  | k :: ks =>
    match solveFloor ft pin ordered with
    | .error (.infeasible ty) => .error (.layoutInfeasible ty k)
    | .error .stairMisfit => .error (.stairAlignment k)
    | .ok rooms =>
      match solveRest ft pin ordered ks with
      | .error e => .error e
      | .ok rest => .ok (rooms :: rest)

/-- Modelled from the spec: §4.6, the stairs rectangle of floor 1 is recorded
and pinned into every other floor when the building has several floors. -/
def stairsPin (inp : Input) (rooms1 : List Room) : Option Room :=
  if 1 < inp.floors then
    (rooms1.filter (fun r => decide (r.ty = RoomType.stairs))).head?
  else none

/-- Placeholders passed to the floors above floor 1: when a stairs rectangle
is pinned, the stairs placeholder is replaced by the pin (§4.6). -/
def restOrder (inp : Input) (ordered : List Placeholder) (rooms1 : List Room) :
    List Placeholder :=
  if (stairsPin inp rooms1).isSome then
    ordered.filter (fun p => decide (¬ p.ty = RoomType.stairs))
  else ordered

/-- Assembles the Building value: one finalized floor per solved room list,
plus aggregated metrics. -/
def mkBuilding (inp : Input) (rooms1 : List Room) (rest : List (List Room)) :
    Building :=
  let fls := (List.zip (List.range' 1 (numFloors inp)) (rooms1 :: rest)).map
    (fun pr => buildFloor ⟨0, 0, inp.width, inp.length⟩ pr.1 pr.2 inp.include_windows)
  ⟨fls, buildingMetrics fls⟩

/-- Modelled from the spec: the full pipeline (§4.6) given the ordered
placeholder list: validate (§7 InvalidInput before any solving), solve floor
1, pin its stairs rectangle, solve the remaining floors, then derive
circulation and metrics per floor and aggregate. -/
def generateOrdered (inp : Input) (ordered : List Placeholder) :
    Except GenError Building :=
  if inp.width ≤ 0 ∨ inp.length ≤ 0 then
    .error (.invalidInput "footprint dimensions must be positive")
  else if inp.rooms = [] then
    .error (.invalidInput "room list must not be empty")
  else
    match parseReqs inp.rooms with
    | none => .error (.invalidInput "unknown room type")
    | some _reqs =>
      match solveFloor ⟨0, 0, inp.width, inp.length⟩ none ordered with
      | .error (.infeasible ty) => .error (.layoutInfeasible ty 1)
      | .error .stairMisfit => .error (.stairAlignment 1)
      | .ok rooms1 =>
        match solveRest ⟨0, 0, inp.width, inp.length⟩ (stairsPin inp rooms1)
            (restOrder inp ordered rooms1) (List.range' 2 (numFloors inp - 1)) with
        | .error e => .error e
        | .ok rest => .ok (mkBuilding inp rooms1 rest)

/-- The placeholder list of a request (before ordering). -/
def placeholdersOf (inp : Input) : List Placeholder :=
  match parseReqs inp.rooms with
  | some reqs => expand reqs
  | none => []

/-- The generator: places the placeholders in the canonical deterministic
order of §4.4. -/
def generate (inp : Input) : Except GenError Building :=
  generateOrdered inp (List.insertionSort placeOrder (placeholdersOf inp))

/-- Floors of a generation result (empty on failure). -/
def floorsOf (res : Except GenError Building) : List FloorOut :=
  match res with
  | .ok b => b.floors
  | .error _ => []

/-- Printable room-type name. -/
def roomTypeName : RoomType → String
  | .bedroom => "bedroom"
  | .living => "living"
  | .kitchen => "kitchen"
  | .bathroom => "bathroom"
  | .office => "office"
  | .hallway => "hallway"
  | .stairs => "stairs"

/-- Message attached to each §7 failure kind. -/
def errMessage : GenError → String
  | .invalidInput m => "InvalidInput: " ++ m
  | .layoutInfeasible ty k =>
    "LayoutInfeasible: " ++ roomTypeName ty ++ " on floor " ++ toString k
  | .stairAlignment k => "StairAlignmentError on floor " ++ toString k

/-- Transport response of the output contract (§6). -/
structure Response where
  success : Bool
  floors : Option (List FloorOut)
  metrics : Option BuildingMetrics
  error : Option String
  deriving DecidableEq, Repr

/-- Modelled from the spec: §6/§7 response framing — `success:false` with an
error string and no floors array on any failure; the whole building on
success. -/
def serialize (res : Except GenError Building) : Response :=
  match res with
  | .ok b => ⟨true, some b.floors, some b.metrics, none⟩
  | .error e => ⟨false, none, none, some (errMessage e)⟩

/-! Client controller state (src/frontend/script.js). -/

/-- Client-side controller state: the fields `currentFloor`, `totalFloors`
and `floorPlanData` of `FloorPlanGenerator`. -/
structure ClientState where
  currentFloor : Int
  totalFloors : Int
  floorPlanData : Option Response
  deriving DecidableEq, Repr

/-- Embeds the response handling of `generateFloorPlan`
(src/frontend/script.js:129-155): on success the response is stored,
`totalFloors` becomes `data.floors ? data.floors.length : 1` and
`currentFloor` resets to 1; otherwise an error is thrown (second component)
and the state is left untouched. -/
def handleResponse (st : ClientState) (resp : Response) :
    ClientState × Option String :=
  if resp.success then
    ({ currentFloor := 1
       totalFloors :=
         match resp.floors with
         | some fs => (fs.length : Int)
         | none => 1
       floorPlanData := some resp }, none)
  else
    (st, some (match resp.error with
      | some e => e
      | none => "Unknown error from backend"))

/-- Embeds the prev-floor click handler (src/frontend/script.js:33-38). -/
def prevFloor (st : ClientState) : ClientState :=
  if st.currentFloor > 1 then { st with currentFloor := st.currentFloor - 1 }
  else st

/-- Embeds the next-floor click handler (src/frontend/script.js:40-45). -/
def nextFloor (st : ClientState) : ClientState :=
  if st.currentFloor < st.totalFloors then
    { st with currentFloor := st.currentFloor + 1 }
  else st

/-- Outcome of the guard sequence of `renderFloorPlan`
(src/frontend/script.js:185-201). -/
inductive RenderAction
  | errNoData
  | errInvalidFloor
  | render (idx : Int)
  deriving DecidableEq, Repr

/-- Embeds the guards of `renderFloorPlan`: missing or empty data shows the
no-data message; then `floorIndex = currentFloor - 1` is rejected only when
`floorIndex >= floors.length`; otherwise `floors[floorIndex]` is read. -/
def renderDecision (st : ClientState) : RenderAction :=
  match st.floorPlanData with
  | none => .errNoData
  | some d =>
    match d.floors with
    | none => .errNoData
    | some fs =>
      if fs.length = 0 then .errNoData
      else if (fs.length : Int) ≤ st.currentFloor - 1 then .errInvalidFloor
      else .render (st.currentFloor - 1)

/-! Concrete inputs used to witness the theorems, taken from §8. -/

/-- Scenario A of §8: footprint 12×10 with the five standard rooms. -/
def testInputA : Input :=
  ⟨12, 10, 1, [("bedroom", 2), ("living", 1), ("kitchen", 1), ("bathroom", 1)],
    "modern", true⟩

/-- Scenario B of §8: a 1×1 footprint cannot host a bedroom of min area 9. -/
def testInputB : Input := ⟨1, 1, 1, [("bedroom", 1)], "modern", false⟩

/-- Scenario C of §8: two floors with stairs requested. -/
def testInputC : Input := ⟨10, 10, 2, [("bedroom", 1), ("stairs", 1)], "modern", false⟩

/-! Supporting lemmas. -/

theorem sep_iff (a b : Rect) : Sep a b ↔ overlaps a b = false := by
  simp only [overlaps, Bool.and_eq_false_iff, decide_eq_false_iff_not, not_lt, Sep]
  tauto

theorem sep_symm {a b : Rect} (h : Sep a b) : Sep b a := by
  rcases h with h | h | h | h
  · exact Or.inr (Or.inl h)
  · exact Or.inl h
  · exact Or.inr (Or.inr (Or.inr h))
  · exact Or.inr (Or.inr (Or.inl h))

theorem contains_iff (outer inner : Rect) :
    contains outer inner = true ↔
      outer.x ≤ inner.x ∧ inner.x + inner.w ≤ outer.x + outer.w ∧
      outer.y ≤ inner.y ∧ inner.y + inner.h ≤ outer.y + outer.h := by
  simp [contains, and_assoc]

/-- A rectangle inside `f` is separated from anything `f` is separated from. -/
theorem sep_of_contains {f a c : Rect} (hc : contains f a = true) (hs : Sep f c) :
    Sep a c := by
  rw [contains_iff] at hc
  obtain ⟨h1, h2, h3, h4⟩ := hc
  rcases hs with h | h | h | h
  · exact Or.inl (by linarith)
  · exact Or.inr (Or.inl (by linarith))
  · exact Or.inr (Or.inr (Or.inl (by linarith)))
  · exact Or.inr (Or.inr (Or.inr (by linarith)))


theorem typeRank_inj : ∀ a b : RoomType, typeRank a = typeRank b → a = b := by
  intro a b h
  cases a <;> cases b <;> first | rfl | simp [typeRank] at h

theorem placeKey_inj {p q : Placeholder} (h : placeKey p = placeKey q) : p = q := by
  simp only [placeKey, toLex_inj, Prod.mk.injEq] at h
  obtain ⟨-, h2, h3, h4, h5⟩ := h
  cases p
  cases q
  simp only [Placeholder.mk.injEq]
  exact ⟨typeRank_inj _ _ h2, h3, h4, h5⟩


theorem foldl_choice_mem {α : Type} (cond : α → α → Bool) :
    ∀ (l : List α) (b : α),
      l.foldl (fun best x => if cond x best then x else best) b = b ∨
      l.foldl (fun best x => if cond x best then x else best) b ∈ l := by
  intro l
  induction l with
  | nil => intro b; exact Or.inl rfl
  | cons x xs ih =>
    intro b
    simp only [List.foldl_cons]
    by_cases h : cond x b = true
    · rw [if_pos h]
      rcases ih x with h1 | h1
      · exact Or.inr (by rw [h1]; exact List.mem_cons_self x xs)
      · exact Or.inr (List.mem_cons_of_mem _ h1)
    · rw [if_neg h]
      rcases ih b with h1 | h1
      · exact Or.inl h1
      · exact Or.inr (List.mem_cons_of_mem _ h1)

theorem chooseBest_mem {p : Placeholder} {placed : List Room} {l : List Rect}
    {f : Rect} (h : chooseBest p placed l = some f) : f ∈ l := by
  cases l with
  | nil => simp [chooseBest] at h
  | cons c rest =>
    simp only [chooseBest, Option.some.injEq] at h
    subst h
    rcases foldl_choice_mem (betterCand p placed) rest c with h1 | h1
    · rw [h1]; exact List.mem_cons_self c rest
    · exact List.mem_cons_of_mem _ h1


/-! Disjointness invariant of the solver: every two members of the combined
list of placed-room rectangles and free arena rectangles are separated. -/

theorem sep_symmetric : Symmetric Sep := fun _ _ => sep_symm

theorem fits_iff (p : Placeholder) (f : Rect) :
    fits p f = true ↔ 0 < p.tw ∧ 0 < p.th ∧ p.tw ≤ f.w ∧ p.th ≤ f.h := by
  simp [fits, and_assoc]

theorem posRect_iff (r : Rect) : posRect r = true ↔ 0 < r.w ∧ 0 < r.h := by
  simp [posRect]

theorem splitPieces_sep (f : Rect) (rw rh : ℚ) :
    Sep (Rect.mk f.x f.y rw rh) (splitPieces f rw rh).1 ∧
    Sep (Rect.mk f.x f.y rw rh) (splitPieces f rw rh).2 ∧
    Sep (splitPieces f rw rh).1 (splitPieces f rw rh).2 := by
  unfold splitPieces
  dsimp only
  split
  · exact ⟨Or.inr (Or.inl (by dsimp; linarith)),
      Or.inr (Or.inr (Or.inr (by dsimp; linarith))),
      Or.inl (by dsimp; linarith)⟩
  · exact ⟨Or.inr (Or.inl (by dsimp; linarith)),
      Or.inr (Or.inr (Or.inr (by dsimp; linarith))),
      Or.inr (Or.inr (Or.inr (by dsimp; linarith)))⟩

theorem splitPieces_contains (f : Rect) (rw rh : ℚ) (h1 : 0 ≤ rw) (h2 : 0 ≤ rh)
    (h3 : rw ≤ f.w) (h4 : rh ≤ f.h) :
    contains f (Rect.mk f.x f.y rw rh) = true ∧
    contains f (splitPieces f rw rh).1 = true ∧
    contains f (splitPieces f rw rh).2 = true := by
  unfold splitPieces
  dsimp only
  split <;>
    refine ⟨?_, ?_, ?_⟩ <;>
      (rw [contains_iff]; dsimp only;
        exact ⟨by linarith, by linarith, by linarith, by linarith⟩)

theorem carveAround_pairwise (outer r : Rect) (hw : 0 ≤ r.w) (hh : 0 ≤ r.h) :
    List.Pairwise Sep (r :: carveAround outer r) := by
  refine List.Pairwise.sublist
    (List.Sublist.cons₂ r (List.filter_sublist _)) ?_
  refine List.Pairwise.cons ?_ (List.Pairwise.cons ?_ (List.Pairwise.cons ?_
    (List.Pairwise.cons ?_ (List.pairwise_singleton _ _))))
  · intro b hb
    simp only [List.mem_cons, List.not_mem_nil, or_false] at hb
    rcases hb with rfl | rfl | rfl | rfl
    · exact Or.inl (by dsimp; linarith)
    · exact Or.inr (Or.inl (by dsimp; linarith))
    · exact Or.inr (Or.inr (Or.inl (by dsimp; linarith)))
    · exact Or.inr (Or.inr (Or.inr (by dsimp; linarith)))
  · intro b hb
    simp only [List.mem_cons, List.not_mem_nil, or_false] at hb
    rcases hb with rfl | rfl | rfl
    · exact Or.inr (Or.inl (by dsimp; linarith))
    · exact Or.inr (Or.inl (by dsimp; linarith))
    · exact Or.inr (Or.inl (by dsimp; linarith))
  · intro b hb
    simp only [List.mem_cons, List.not_mem_nil, or_false] at hb
    rcases hb with rfl | rfl
    · exact Or.inl (by dsimp; linarith)
    · exact Or.inl (by dsimp; linarith)
  · intro b hb
    simp only [List.mem_cons, List.not_mem_nil, or_false] at hb
    rcases hb with rfl
    exact Or.inr (Or.inr (Or.inr (by dsimp; linarith)))

theorem placeStep_inv {st st1 : SolverState} {p : Placeholder}
    (hinv : StateInv st) (h : placeStep st p = some st1) : StateInv st1 := by
  unfold placeStep at h
  split at h
  · exact absurd h (by simp)
  next f hc =>
    simp only [Option.some.injEq] at h
    subst h
    have hmem := chooseBest_mem hc
    rw [List.mem_filter] at hmem
    obtain ⟨hfree, hfits⟩ := hmem
    rw [fits_iff] at hfits
    obtain ⟨htw, hth, hw, hh⟩ := hfits
    obtain ⟨l1, l2, -, hsplit, herase⟩ := List.exists_erase_eq hfree
    set room : Rect := Rect.mk f.x f.y p.tw p.th with hroom
    set pcs := splitPieces f p.tw p.th with hpcs
    obtain ⟨hs1, hs2, hs12⟩ := splitPieces_sep f p.tw p.th
    obtain ⟨hc0, hc1, hc2⟩ :=
      splitPieces_contains f p.tw p.th (le_of_lt htw) (le_of_lt hth) hw hh
    set P := st.placed.map Room.rect with hP
    have h0 : List.Pairwise Sep (P ++ (l1 ++ f :: l2)) := by
      rw [← hsplit]; exact hinv
    have hperm : List.Perm (P ++ (l1 ++ f :: l2)) (f :: (P ++ l1 ++ l2)) := by
      rw [← List.append_assoc]
      exact List.perm_middle
    have h1 : List.Pairwise Sep (f :: (P ++ l1 ++ l2)) :=
      h0.perm hperm (fun h => sep_symm h)
    rw [List.pairwise_cons] at h1
    obtain ⟨hf, hrest⟩ := h1
    set pf := [pcs.1, pcs.2].filter posRect with hpf
    have hBL : List.Pairwise Sep (room :: pcs.1 :: pcs.2 :: (P ++ l1 ++ l2)) := by
      refine List.Pairwise.cons ?_ (List.Pairwise.cons ?_ (List.Pairwise.cons ?_ hrest))
      · intro y hy
        rcases List.mem_cons.mp hy with rfl | hy
        · exact hs1
        rcases List.mem_cons.mp hy with rfl | hy
        · exact hs2
        · exact sep_of_contains hc0 (hf y hy)
      · intro y hy
        rcases List.mem_cons.mp hy with rfl | hy
        · exact hs12
        · exact sep_of_contains hc1 (hf y hy)
      · intro y hy
        exact sep_of_contains hc2 (hf y hy)
    have hsub : List.Sublist (room :: (pf ++ (P ++ l1 ++ l2)))
        (room :: (pcs.1 :: pcs.2 :: (P ++ l1 ++ l2))) := by
      refine List.Sublist.cons₂ room ?_
      have hps : List.Sublist pf [pcs.1, pcs.2] := List.filter_sublist _
      exact hps.append (List.Sublist.refl _)
    have hT1 : List.Pairwise Sep (room :: (pf ++ (P ++ l1 ++ l2))) :=
      hBL.sublist hsub
    have hta : List.Perm (pf ++ (P ++ l1 ++ l2)) (P ++ ((l1 ++ l2) ++ pf)) := by
      have hcomm : List.Perm (pf ++ (P ++ l1 ++ l2)) ((P ++ l1 ++ l2) ++ pf) :=
        List.perm_append_comm
      have heq : (P ++ l1 ++ l2) ++ pf = P ++ ((l1 ++ l2) ++ pf) := by
        simp [List.append_assoc]
      rw [heq] at hcomm
      exact hcomm
    have hT : List.Pairwise Sep (room :: (P ++ ((l1 ++ l2) ++ pf))) :=
      hT1.perm (List.Perm.cons room hta) (fun h => sep_symm h)
    show List.Pairwise Sep
      ((⟨p.ty, p.seq, room⟩ :: st.placed).map Room.rect ++ (st.free.erase f ++ pf))
    rw [List.map_cons, herase, List.cons_append]
    exact hT

theorem runPass_inv :
    ∀ {ps : List Placeholder} {st st1 : SolverState},
      StateInv st → runPass st ps = .ok st1 → StateInv st1 := by
  intro ps
  induction ps with
  | nil =>
    intro st st1 hinv h
    simp only [runPass] at h
    cases h
    exact hinv
  | cons p ps ih =>
    intro st st1 hinv h
    simp only [runPass] at h
    cases hs : placeStep st p with
    | none => rw [hs] at h; exact absurd h (by simp)
    | some st2 =>
      rw [hs] at h
      exact ih (placeStep_inv hinv hs) h

theorem initState_inv {ft : Rect} {pinned : Option Room} {st : SolverState}
    (h : initState ft pinned = some st) : StateInv st := by
  cases pinned with
  | none =>
    simp only [initState, Option.some.injEq] at h
    subst h
    exact List.pairwise_singleton _ _
  | some r =>
    simp only [initState] at h
    split at h
    · next hcond =>
      simp only [Option.some.injEq] at h
      subst h
      rw [Bool.and_eq_true, posRect_iff] at hcond
      exact carveAround_pairwise ft r.rect (le_of_lt hcond.1.1) (le_of_lt hcond.1.2)
    · exact absurd h (by simp)

theorem solveFloor_pairwise {ft : Rect} {pinned : Option Room}
    {ordered : List Placeholder} {rooms : List Room}
    (h : solveFloor ft pinned ordered = .ok rooms) :
    List.Pairwise Sep (rooms.map Room.rect) := by
  unfold solveFloor at h
  split at h
  · exact absurd h (by simp)
  next st0 hi =>
    have hinv0 := initState_inv hi
    split at h
    · next st h1 =>
      simp only [Except.ok.injEq] at h
      subst h
      exact (runPass_inv hinv0 h1).sublist (List.sublist_append_left _ _)
    · next e h1 =>
      split at h
      · next st h2 =>
        simp only [Except.ok.injEq] at h
        subst h
        exact (runPass_inv hinv0 h2).sublist (List.sublist_append_left _ _)
      · next ty h2 => exact absurd h (by simp)


theorem solveRest_mem {ft : Rect} {pin : Option Room} {ordered : List Placeholder} :
    ∀ {ks : List ℕ} {ls : List (List Room)} {rooms : List Room},
      solveRest ft pin ordered ks = .ok ls → rooms ∈ ls →
      solveFloor ft pin ordered = .ok rooms := by
  intro ks
  induction ks with
  | nil =>
    intro ls rooms h hm
    simp only [solveRest, Except.ok.injEq] at h
    subst h
    simp at hm
  | cons k ks ih =>
    intro ls rooms h hm
    simp only [solveRest] at h
    split at h
    · exact absurd h (by simp)
    · exact absurd h (by simp)
    · next rooms2 hsf =>
      split at h
      · exact absurd h (by simp)
      · next rest hrest =>
        simp only [Except.ok.injEq] at h
        subst h
        rcases List.mem_cons.mp hm with rfl | hm2
        · exact hsf
        · exact ih hrest hm2

theorem floorsOf_generateOrdered_cases {inp : Input} {ordered : List Placeholder}
    {fl : FloorOut} (h : fl ∈ floorsOf (generateOrdered inp ordered)) :
    ∃ (k : ℕ) (rooms rooms1 : List Room),
      solveFloor ⟨0, 0, inp.width, inp.length⟩ none ordered = .ok rooms1 ∧
      fl = buildFloor ⟨0, 0, inp.width, inp.length⟩ k rooms inp.include_windows ∧
      (rooms = rooms1 ∨
        solveFloor ⟨0, 0, inp.width, inp.length⟩ (stairsPin inp rooms1)
          (restOrder inp ordered rooms1) = .ok rooms) := by
  unfold generateOrdered at h
  split at h
  · simp [floorsOf] at h
  split at h
  · simp [floorsOf] at h
  split at h
  · simp [floorsOf] at h
  next reqs hreqs =>
    split at h
    · simp [floorsOf] at h
    · simp [floorsOf] at h
    next rooms1 hsf =>
      split at h
      · simp [floorsOf] at h
      next rest hrest =>
        simp only [floorsOf, mkBuilding, List.mem_map] at h
        obtain ⟨⟨k, rooms⟩, hmem, rfl⟩ := h
        have hr2 := (List.of_mem_zip hmem).2
        refine ⟨k, rooms, rooms1, hsf, rfl, ?_⟩
        rcases List.mem_cons.mp hr2 with rfl | hm2
        · exact Or.inl rfl
        · exact Or.inr (solveRest_mem hrest hm2)

theorem shrinkPlaceholder_ty (p : Placeholder) : (shrinkPlaceholder p).ty = p.ty := by
  unfold shrinkPlaceholder
  split <;> rfl

theorem shrinkTwoLargest_stairs_count (l : List Placeholder) :
    ((shrinkTwoLargest l).filter (fun p => decide (p.ty = RoomType.stairs))).length =
    (l.filter (fun p => decide (p.ty = RoomType.stairs))).length := by
  match l with
  | [] => rfl
  | [a] => rfl
  | a :: b :: rest =>
    show ((shrinkPlaceholder a :: shrinkPlaceholder b :: rest).filter _).length = _
    simp only [List.filter_cons, shrinkPlaceholder_ty]
    split_ifs <;> simp

theorem shrinkTwoLargest_types {l : List Placeholder}
    (h : ∀ p ∈ l, ¬ p.ty = RoomType.stairs) :
    ∀ p ∈ shrinkTwoLargest l, ¬ p.ty = RoomType.stairs := by
  match l with
  | [] => exact h
  | [a] => exact h
  | a :: b :: rest =>
    intro p hp
    show ¬ p.ty = RoomType.stairs
    rcases List.mem_cons.mp hp with rfl | hp2
    · rw [shrinkPlaceholder_ty]
      exact h a (List.mem_cons_self _ _)
    rcases List.mem_cons.mp hp2 with rfl | hp3
    · rw [shrinkPlaceholder_ty]
      exact h b (List.mem_cons_of_mem _ (List.mem_cons_self _ _))
    · exact h p (List.mem_cons_of_mem _ (List.mem_cons_of_mem _ hp3))

theorem placeStep_placed {st st1 : SolverState} {p : Placeholder}
    (h : placeStep st p = some st1) :
    ∃ rc : Rect, st1.placed = ⟨p.ty, p.seq, rc⟩ :: st.placed := by
  unfold placeStep at h
  split at h
  · exact absurd h (by simp)
  next f hc =>
    simp only [Option.some.injEq] at h
    subst h
    exact ⟨_, rfl⟩

theorem runPass_no_stairs_filter :
    ∀ {ps : List Placeholder} {st st1 : SolverState},
      runPass st ps = .ok st1 → (∀ p ∈ ps, ¬ p.ty = RoomType.stairs) →
      st1.placed.filter (fun r => decide (r.ty = RoomType.stairs)) =
      st.placed.filter (fun r => decide (r.ty = RoomType.stairs)) := by
  intro ps
  induction ps with
  | nil =>
    intro st st1 h hns
    simp only [runPass, Except.ok.injEq] at h
    subst h
    rfl
  | cons p ps ih =>
    intro st st1 h hns
    simp only [runPass] at h
    cases hs : placeStep st p with
    | none => rw [hs] at h; exact absurd h (by simp)
    | some st2 =>
      rw [hs] at h
      obtain ⟨rc, hpl⟩ := placeStep_placed hs
      have hrec := ih h (fun q hq => hns q (List.mem_cons_of_mem _ hq))
      rw [hrec, hpl, List.filter_cons]
      have hty : ¬ p.ty = RoomType.stairs := hns p (List.mem_cons_self _ _)
      simp [hty]

theorem runPass_stairs_count :
    ∀ {ps : List Placeholder} {st st1 : SolverState},
      runPass st ps = .ok st1 →
      (st1.placed.filter (fun r => decide (r.ty = RoomType.stairs))).length =
      (ps.filter (fun p => decide (p.ty = RoomType.stairs))).length +
      (st.placed.filter (fun r => decide (r.ty = RoomType.stairs))).length := by
  intro ps
  induction ps with
  | nil =>
    intro st st1 h
    simp only [runPass, Except.ok.injEq] at h
    subst h
    simp
  | cons p ps ih =>
    intro st st1 h
    simp only [runPass] at h
    cases hs : placeStep st p with
    | none => rw [hs] at h; exact absurd h (by simp)
    | some st2 =>
      rw [hs] at h
      obtain ⟨rc, hpl⟩ := placeStep_placed hs
      have hrec := ih h
      rw [hpl] at hrec
      simp only [List.filter_cons] at hrec ⊢
      by_cases hty : p.ty = RoomType.stairs
      · simp only [hty] at hrec ⊢
        simp at hrec ⊢
        omega
      · simp only [hty] at hrec ⊢
        simp [hty] at hrec ⊢
        omega

theorem solveFloor_stairs_count {ft : Rect} {ordered : List Placeholder}
    {rooms : List Room}
    (h : solveFloor ft none ordered = .ok rooms) :
    (rooms.filter (fun r => decide (r.ty = RoomType.stairs))).length =
    (ordered.filter (fun p => decide (p.ty = RoomType.stairs))).length := by
  unfold solveFloor initState at h
  simp only at h
  split at h
  · next st hrp =>
    simp only [Except.ok.injEq] at h
    subst h
    have := runPass_stairs_count hrp
    simpa using this
  · next e hrp =>
    split at h
    · next st hrp2 =>
      simp only [Except.ok.injEq] at h
      subst h
      have := runPass_stairs_count hrp2
      rw [shrinkTwoLargest_stairs_count] at this
      simpa using this
    · exact absurd h (by simp)

theorem solveFloor_pinned_stairs {ft : Rect} {s0 : Room}
    {ordered : List Placeholder} {rooms : List Room}
    (h : solveFloor ft (some s0) ordered = .ok rooms)
    (hns : ∀ p ∈ ordered, ¬ p.ty = RoomType.stairs) :
    rooms.filter (fun r => decide (r.ty = RoomType.stairs)) =
    [s0].filter (fun r => decide (r.ty = RoomType.stairs)) := by
  unfold solveFloor initState at h
  split at h
  · exact absurd h (by simp)
  next st0 hcond =>
    have hplaced : st0.placed = [s0] := by
      dsimp only at hcond
      split_ifs at hcond
      simp only [Option.some.injEq] at hcond
      rw [← hcond]
    split at h
    · next st hrp =>
      simp only [Except.ok.injEq] at h
      subst h
      rw [runPass_no_stairs_filter hrp hns, hplaced]
    · next e hrp =>
      split at h
      · next st hrp2 =>
        simp only [Except.ok.injEq] at h
        subst h
        rw [runPass_no_stairs_filter hrp2 (shrinkTwoLargest_types hns), hplaced]
      · exact absurd h (by simp)

theorem expandCore_types :
    ∀ (reqs : List (RoomType × ℕ)) (n : ℕ) (p : Placeholder),
      p ∈ expandCore reqs n → p.ty ∈ reqs.map Prod.fst := by
  intro reqs
  induction reqs with
  | nil => intro n p hp; simp [expandCore] at hp
  | cons rq rest ih =>
    intro n p hp
    obtain ⟨ty, c⟩ := rq
    simp only [expandCore, List.mem_append, List.mem_map] at hp
    rcases hp with ⟨i, -, rfl⟩ | hp2
    · simp
    · simp only [List.map_cons, List.mem_cons]
      exact Or.inr (ih _ p hp2)

theorem expand_stairs_le_one (reqs : List (RoomType × ℕ)) :
    ((expand reqs).filter (fun p => decide (p.ty = RoomType.stairs))).length ≤ 1 := by
  unfold expand
  have hbase : (expandCore (reqs.filter fun rq => decide (¬ rq.1 = RoomType.stairs)) 0).filter
      (fun p => decide (p.ty = RoomType.stairs)) = [] := by
    rw [List.filter_eq_nil_iff]
    intro p hp
    have hty := expandCore_types _ _ p hp
    simp only [List.mem_map] at hty
    obtain ⟨rq, hrq, hfst⟩ := hty
    have hns := (List.mem_filter.mp hrq).2
    simp only [decide_eq_true_eq] at hns ⊢
    rw [← hfst]
    exact hns
  split
  · rw [List.filter_append, hbase, List.nil_append]
    simp
  · rw [hbase]
    simp

theorem ordered_stairs_le_one (inp : Input) :
    ((List.insertionSort placeOrder (placeholdersOf inp)).filter
      (fun p => decide (p.ty = RoomType.stairs))).length ≤ 1 := by
  have hperm := (List.perm_insertionSort placeOrder (placeholdersOf inp)).filter
    (fun p => decide (p.ty = RoomType.stairs))
  rw [hperm.length_eq]
  unfold placeholdersOf
  split
  · next reqs hreqs => exact expand_stairs_le_one reqs
  · simp

theorem generateOrdered_stairs_unique (inp : Input) (ordered : List Placeholder)
    (hle : (ordered.filter (fun p => decide (p.ty = RoomType.stairs))).length ≤ 1) :
    ∃ s : Room, ∀ fl ∈ floorsOf (generateOrdered inp ordered), ∀ r ∈ fl.rooms,
      r.ty = RoomType.stairs → r = s := by
  cases hsf : solveFloor ⟨0, 0, inp.width, inp.length⟩ none ordered with
  | error e =>
    refine ⟨⟨.stairs, 0, ⟨0, 0, 0, 0⟩⟩, ?_⟩
    intro fl hfl r hr hty
    obtain ⟨k, rooms, rooms1, hsf1, -, -⟩ := floorsOf_generateOrdered_cases hfl
    rw [hsf] at hsf1
    cases hsf1
  | ok rooms1 =>
    have hcount : (rooms1.filter (fun r => decide (r.ty = RoomType.stairs))).length ≤ 1 := by
      rw [solveFloor_stairs_count hsf]
      exact hle
    cases hfil : rooms1.filter (fun r => decide (r.ty = RoomType.stairs)) with
    | nil =>
      refine ⟨⟨.stairs, 0, ⟨0, 0, 0, 0⟩⟩, ?_⟩
      intro fl hfl r hr hty
      exfalso
      obtain ⟨k, rooms, rooms1b, hsf1, hfl_eq, hd⟩ := floorsOf_generateOrdered_cases hfl
      rw [hsf] at hsf1
      injection hsf1 with hb
      subst hb
      subst hfl_eq
      simp only [buildFloor] at hr
      have hpin : stairsPin inp rooms1 = none := by
        unfold stairsPin
        split_ifs <;> simp [hfil]
      have hro : restOrder inp ordered rooms1 = ordered := by
        unfold restOrder
        rw [hpin]
        simp
      have hrr : rooms = rooms1 := by
        rcases hd with rfl | hsf2
        · rfl
        · rw [hpin, hro, hsf] at hsf2
          injection hsf2 with hb2
          exact hb2.symm
      subst hrr
      have hm : r ∈ rooms.filter (fun rm => decide (rm.ty = RoomType.stairs)) :=
        List.mem_filter.mpr ⟨hr, by simp [hty]⟩
      rw [hfil] at hm
      simp at hm
    | cons s0 t =>
      have ht : t = [] := by
        rw [hfil] at hcount
        simp only [List.length_cons] at hcount
        exact List.length_eq_zero.mp (by omega)
      subst ht
      have hs0ty : s0.ty = RoomType.stairs := by
        have hmem : s0 ∈ rooms1.filter (fun rm => decide (rm.ty = RoomType.stairs)) := by
          rw [hfil]
          exact List.mem_cons_self _ _
        have := (List.mem_filter.mp hmem).2
        simpa using this
      refine ⟨s0, ?_⟩
      intro fl hfl r hr hty
      obtain ⟨k, rooms, rooms1b, hsf1, hfl_eq, hd⟩ := floorsOf_generateOrdered_cases hfl
      rw [hsf] at hsf1
      injection hsf1 with hb
      subst hb
      subst hfl_eq
      simp only [buildFloor] at hr
      by_cases hmf : 1 < inp.floors
      · have hpin : stairsPin inp rooms1 = some s0 := by
          unfold stairsPin
          rw [if_pos hmf, hfil]
          rfl
        rcases hd with rfl | hsf2
        · have hm : r ∈ rooms.filter (fun rm => decide (rm.ty = RoomType.stairs)) :=
            List.mem_filter.mpr ⟨hr, by simp [hty]⟩
          rw [hfil] at hm
          simpa using hm
        · have hro : restOrder inp ordered rooms1 =
              ordered.filter (fun p => decide (¬ p.ty = RoomType.stairs)) := by
            unfold restOrder
            rw [hpin]
            simp
          rw [hpin, hro] at hsf2
          have hns : ∀ p ∈ ordered.filter (fun p => decide (¬ p.ty = RoomType.stairs)),
              ¬ p.ty = RoomType.stairs := by
            intro p hp
            have := (List.mem_filter.mp hp).2
            simpa using this
          have hflt := solveFloor_pinned_stairs hsf2 hns
          have hsingle : ([s0].filter (fun rm => decide (rm.ty = RoomType.stairs))) = [s0] := by
            simp [hs0ty]
          rw [hsingle] at hflt
          have hm : r ∈ rooms.filter (fun rm => decide (rm.ty = RoomType.stairs)) :=
            List.mem_filter.mpr ⟨hr, by simp [hty]⟩
          rw [hflt] at hm
          simpa using hm
      · have hpin : stairsPin inp rooms1 = none := by
          unfold stairsPin
          rw [if_neg hmf]
        have hro : restOrder inp ordered rooms1 = ordered := by
          unfold restOrder
          rw [hpin]
          simp
        have hrr : rooms = rooms1 := by
          rcases hd with rfl | hsf2
          · rfl
          · rw [hpin, hro, hsf] at hsf2
            injection hsf2 with hb2
            exact hb2.symm
        subst hrr
        have hm : r ∈ rooms.filter (fun rm => decide (rm.ty = RoomType.stairs)) :=
          List.mem_filter.mpr ⟨hr, by simp [hty]⟩
        rw [hfil] at hm
        simpa using hm

/-! Claim theorems. -/

/-- C1: for every input, every pair of distinct RoomInstances placed on the
same generated floor is non-overlapping: `overlaps(a,b) = false`, where
overlap is strict interior overlap and shared edges are permitted. -/
theorem claim_no_overlap {inp : Input} {fl : FloorOut}
    (h : fl ∈ floorsOf (generate inp)) :
    List.Pairwise (fun a b : Room => overlaps a.rect b.rect = false) fl.rooms := by
  have h2 : fl ∈ floorsOf
      (generateOrdered inp (List.insertionSort placeOrder (placeholdersOf inp))) := h
  obtain ⟨k, rooms, rooms1, hsf1, rfl, hd⟩ := floorsOf_generateOrdered_cases h2
  have hpw : List.Pairwise Sep (rooms.map Room.rect) := by
    rcases hd with rfl | hsf2
    · exact solveFloor_pairwise hsf1
    · exact solveFloor_pairwise hsf2
  simp only [buildFloor]
  exact (List.pairwise_map.mp hpw).imp (fun hab => (sep_iff _ _).mp hab)

/-- Witness for C1 at Scenario A (12×10 footprint, five rooms). -/
theorem claim_no_overlap_witness :
    List.Pairwise (fun a b : Room => overlaps a.rect b.rect = false)
      ((floorsOf (generate testInputA)).getD 0 default).rooms :=
  @claim_no_overlap testInputA ((floorsOf (generate testInputA)).getD 0 default)
    (by with_unfolding_all decide)

/-- C2: the generator is deterministic — the §4.4 ordering admits no
tie-breaking freedom, so any two runs whose placement orders are compliant
(sorted permutations of the request placeholders) produce identical Building
values: identical RoomInstances, walls, windows, doors and metrics. -/
theorem claim_deterministic (inp : Input) (l1 l2 : List Placeholder)
    (h1 : List.Perm l1 (placeholdersOf inp)) (h2 : List.Perm l2 (placeholdersOf inp))
    (s1 : List.Sorted placeOrder l1) (s2 : List.Sorted placeOrder l2) :
    generateOrdered inp l1 = generateOrdered inp l2 := by
  haveI : IsAntisymm Placeholder placeOrder :=
    ⟨fun _p _q ha hb => placeKey_inj (le_antisymm ha hb)⟩
  have heq : l1 = l2 := List.eq_of_perm_of_sorted (h1.trans h2.symm) s1 s2
  rw [heq]

/-- Witness for C2 at Scenario C. -/
theorem claim_deterministic_witness :
    generateOrdered testInputC
        (List.insertionSort placeOrder (placeholdersOf testInputC)) =
      generateOrdered testInputC
        (List.insertionSort placeOrder (placeholdersOf testInputC)) :=
  claim_deterministic testInputC _ _
    (List.perm_insertionSort placeOrder (placeholdersOf testInputC))
    (List.perm_insertionSort placeOrder (placeholdersOf testInputC))
    (by with_unfolding_all decide) (by with_unfolding_all decide)

/-- C6: every finalized floor's efficiency equals
`100 * (sum of room areas) / total_area` clamped to [0,100] — hence lies in
[0,100] — and `circulation_area + sum of room areas = total_area` exactly. -/
theorem claim_metrics {inp : Input} {fl : FloorOut}
    (h : fl ∈ floorsOf (generate inp)) :
    fl.metrics.efficiency =
      max 0 (min 100 (100 * sumAreas fl.rooms / fl.metrics.total_area)) ∧
    0 ≤ fl.metrics.efficiency ∧ fl.metrics.efficiency ≤ 100 ∧
    fl.metrics.circulation_area + sumAreas fl.rooms = fl.metrics.total_area := by
  have h2 : fl ∈ floorsOf
      (generateOrdered inp (List.insertionSort placeOrder (placeholdersOf inp))) := h
  obtain ⟨k, rooms, rooms1, -, rfl, -⟩ := floorsOf_generateOrdered_cases h2
  simp only [buildFloor, floorMetrics]
  refine ⟨by trivial, le_max_left _ _, max_le (by norm_num) (min_le_left _ _), by ring⟩

/-- Witness for C6 at Scenario A. -/
theorem claim_metrics_witness :
    ((floorsOf (generate testInputA)).getD 0 default).metrics.efficiency =
      max 0 (min 100 (100 *
        sumAreas ((floorsOf (generate testInputA)).getD 0 default).rooms /
        ((floorsOf (generate testInputA)).getD 0 default).metrics.total_area)) ∧
    0 ≤ ((floorsOf (generate testInputA)).getD 0 default).metrics.efficiency ∧
    ((floorsOf (generate testInputA)).getD 0 default).metrics.efficiency ≤ 100 ∧
    ((floorsOf (generate testInputA)).getD 0 default).metrics.circulation_area +
        sumAreas ((floorsOf (generate testInputA)).getD 0 default).rooms =
      ((floorsOf (generate testInputA)).getD 0 default).metrics.total_area :=
  @claim_metrics testInputA ((floorsOf (generate testInputA)).getD 0 default)
    (by with_unfolding_all decide)

/-- C3: every failure of the §7 taxonomy serializes to `success=false` with
an error string and no floors array (never a partially populated Building),
and the client stores `floorPlanData` from a response only on success,
raising the response's error string and leaving its state unchanged
otherwise. -/
theorem claim_error_handling (res : Except GenError Building) (st : ClientState) :
    ((serialize res).success = false →
      (serialize res).floors = none ∧ (serialize res).error ≠ none ∧
      (handleResponse st (serialize res)).1 = st ∧
      (handleResponse st (serialize res)).2 =
        some (((serialize res).error).getD "Unknown error from backend")) ∧
    ((serialize res).success = true →
      (handleResponse st (serialize res)).1.floorPlanData = some (serialize res) ∧
      (handleResponse st (serialize res)).2 = none) := by
  cases res with
  | ok b =>
    refine ⟨fun hfalse => ?_, fun _ => ?_⟩
    · simp [serialize] at hfalse
    · simp [serialize, handleResponse]
  | error e =>
    refine ⟨fun _ => ?_, fun htrue => ?_⟩
    · simp [serialize, handleResponse]
    · simp [serialize] at htrue

/-- Witness for C3 at a LayoutInfeasible failure. -/
theorem claim_error_handling_witness :
    (serialize (Except.error (GenError.layoutInfeasible RoomType.bedroom 1))).floors
        = none ∧
    (serialize (Except.error (GenError.layoutInfeasible RoomType.bedroom 1))).error
        ≠ none ∧
    (handleResponse ⟨1, 1, none⟩
        (serialize (Except.error (GenError.layoutInfeasible RoomType.bedroom 1)))).1
        = ⟨1, 1, none⟩ ∧
    (handleResponse ⟨1, 1, none⟩
        (serialize (Except.error (GenError.layoutInfeasible RoomType.bedroom 1)))).2 =
      some (((serialize (Except.error
        (GenError.layoutInfeasible RoomType.bedroom 1))).error).getD
          "Unknown error from backend") :=
  (claim_error_handling (Except.error (GenError.layoutInfeasible RoomType.bedroom 1))
    ⟨1, 1, none⟩).1 rfl

/-- C4: absent or invalid fields of the client request are replaced by the
defaults width=12, length=10, floors=1, rooms=[{bedroom,2},{living,1}] when
the room list is empty, and style="modern" when the style is empty. -/
theorem claim_input_defaults (widthRaw lengthRaw floorsRaw : Option Int)
    (roomInputs : List (String × Option Int)) (styleVal : String)
    (furn win : Bool) :
    (widthRaw = none →
      (getInputSpecifications widthRaw lengthRaw floorsRaw roomInputs styleVal
        furn win).width = 12) ∧
    (lengthRaw = none →
      (getInputSpecifications widthRaw lengthRaw floorsRaw roomInputs styleVal
        furn win).length = 10) ∧
    (floorsRaw = none →
      (getInputSpecifications widthRaw lengthRaw floorsRaw roomInputs styleVal
        furn win).floors = 1) ∧
    (roomInputs = [] →
      (getInputSpecifications widthRaw lengthRaw floorsRaw roomInputs styleVal
        furn win).rooms = [("bedroom", 2), ("living", 1)]) ∧
    (styleVal = "" →
      (getInputSpecifications widthRaw lengthRaw floorsRaw roomInputs styleVal
        furn win).style = "modern") := by
  refine ⟨?_, ?_, ?_, ?_, ?_⟩ <;> intro hx <;> subst hx <;>
    simp [getInputSpecifications, jsOrInt, jsOrStr]

/-- Witness for C4: the all-absent request. -/
theorem claim_input_defaults_witness :
    (getInputSpecifications none none none [] "" false false).width = 12 ∧
    (getInputSpecifications none none none [] "" false false).length = 10 ∧
    (getInputSpecifications none none none [] "" false false).floors = 1 ∧
    (getInputSpecifications none none none [] "" false false).rooms =
      [("bedroom", 2), ("living", 1)] ∧
    (getInputSpecifications none none none [] "" false false).style = "modern" :=
  have h := claim_input_defaults none none none [] "" false false
  ⟨h.1 rfl, h.2.1 rfl, h.2.2.1 rfl, h.2.2.2.1 rfl, h.2.2.2.2 rfl⟩

/-- C5 counterexample: the claim "every room rectangle is drawn at pixel
position (x*50, y*50)" fails for a room with x = 0: the renderer's falsy
fallback `(room.x || 1)` draws it at pixel x = 50, not 0*50 = 0. -/
theorem claim_px_scale_cex :
    (renderRoomPx ⟨some 0, some 2, some 4, some 3⟩).x ≠ 0 * pxScale ∧
    (renderRoomPx ⟨some 0, some 2, some 4, some 3⟩).x = 50 := by
  constructor
  · with_unfolding_all decide
  · with_unfolding_all decide

/-- C5 amended: the viewBox spans (0,0)-(width*50, length*50) and wall
endpoints scale at exactly 50 px/unit; room rectangles scale at exactly 50
px/unit whenever their fields are present and non-zero (a zero or absent
field first falls back to the defaults x,y→1 and width,length→3). -/
theorem claim_px_scale (fw fh : ℚ) (w : WallData) (r : RoomData) (x y wd ln : ℚ)
    (hx : r.x = some x) (hx0 : x ≠ 0) (hy : r.y = some y) (hy0 : y ≠ 0)
    (hw : r.width = some wd) (hw0 : wd ≠ 0)
    (hl : r.length = some ln) (hl0 : ln ≠ 0) :
    viewBoxPx fw fh = (fw * 50, fh * 50) ∧
    renderWallPx w = (w.x1 * 50, w.y1 * 50, w.x2 * 50, w.y2 * 50) ∧
    renderRoomPx r = ⟨x * 50, y * 50, wd * 50, ln * 50⟩ := by
  refine ⟨rfl, rfl, ?_⟩
  simp [renderRoomPx, jsOrRat, hx, hy, hw, hl, hx0, hy0, hw0, hl0, pxScale]

/-- Witness for C5 at a concrete floor and room. -/
theorem claim_px_scale_witness :
    viewBoxPx 12 10 = ((12 : ℚ) * 50, (10 : ℚ) * 50) ∧
    renderWallPx ⟨1, 1, 5, 1⟩ =
      ((1 : ℚ) * 50, (1 : ℚ) * 50, (5 : ℚ) * 50, (1 : ℚ) * 50) ∧
    renderRoomPx ⟨some 1, some 2, some 4, some 3⟩ =
      ⟨1 * 50, 2 * 50, 4 * 50, 3 * 50⟩ :=
  claim_px_scale 12 10 ⟨1, 1, 5, 1⟩ ⟨some 1, some 2, some 4, some 3⟩ 1 2 4 3
    rfl (by norm_num) rfl (by norm_num) rfl (by norm_num) rfl (by norm_num)

/-- C7: if stairs appear in the room requests and the building has several
floors, the stairs rectangle (x, y, width, length) is identical on every
floor that contains stairs: any two stairs rooms anywhere in the generated
building share one rectangle. -/
theorem claim_stairs_aligned {inp : Input} {f1 f2 : FloorOut} {s1 s2 : Room}
    (h1 : f1 ∈ floorsOf (generate inp)) (h2 : f2 ∈ floorsOf (generate inp))
    (hm1 : s1 ∈ f1.rooms) (hm2 : s2 ∈ f2.rooms)
    (ht1 : s1.ty = RoomType.stairs) (ht2 : s2.ty = RoomType.stairs) :
    s1.rect = s2.rect := by
  obtain ⟨s, hs⟩ := generateOrdered_stairs_unique inp
    (List.insertionSort placeOrder (placeholdersOf inp)) (ordered_stairs_le_one inp)
  have h1b : f1 ∈ floorsOf
      (generateOrdered inp (List.insertionSort placeOrder (placeholdersOf inp))) := h1
  have h2b : f2 ∈ floorsOf
      (generateOrdered inp (List.insertionSort placeOrder (placeholdersOf inp))) := h2
  rw [hs f1 h1b s1 hm1 ht1, hs f2 h2b s2 hm2 ht2]

/-- Witness for C7 at Scenario C: the stairs rooms of floors 1 and 2 share
one rectangle. -/
theorem claim_stairs_aligned_witness :
    ((((floorsOf (generate testInputC)).getD 0 default).rooms.filter
        (fun r => decide (r.ty = RoomType.stairs))).getD 0
          ⟨RoomType.stairs, 0, ⟨0, 0, 0, 0⟩⟩).rect =
    ((((floorsOf (generate testInputC)).getD 1 default).rooms.filter
        (fun r => decide (r.ty = RoomType.stairs))).getD 0
          ⟨RoomType.stairs, 0, ⟨0, 0, 0, 0⟩⟩).rect :=
  @claim_stairs_aligned testInputC
    ((floorsOf (generate testInputC)).getD 0 default)
    ((floorsOf (generate testInputC)).getD 1 default)
    ((((floorsOf (generate testInputC)).getD 0 default).rooms.filter
        (fun r => decide (r.ty = RoomType.stairs))).getD 0
          ⟨RoomType.stairs, 0, ⟨0, 0, 0, 0⟩⟩)
    ((((floorsOf (generate testInputC)).getD 1 default).rooms.filter
        (fun r => decide (r.ty = RoomType.stairs))).getD 0
          ⟨RoomType.stairs, 0, ⟨0, 0, 0, 0⟩⟩)
    (by with_unfolding_all decide) (by with_unfolding_all decide)
    (by with_unfolding_all decide) (by with_unfolding_all decide)
    (by with_unfolding_all decide) (by with_unfolding_all decide)

/-- C8: after a successful generation with a non-empty floors array the
client has currentFloor = 1 and totalFloors = number of floors; prev/next
floor preserve 1 ≤ currentFloor ≤ totalFloors whenever it held, and step
only within bounds. -/
theorem claim_floor_nav (st : ClientState) (resp : Response) (fs : List FloorOut) :
    (resp.success = true → resp.floors = some fs → fs ≠ [] →
      (handleResponse st resp).1.currentFloor = 1 ∧
      (handleResponse st resp).1.totalFloors = (fs.length : Int) ∧
      1 ≤ (handleResponse st resp).1.currentFloor ∧
      (handleResponse st resp).1.currentFloor ≤
        (handleResponse st resp).1.totalFloors) ∧
    (∀ s : ClientState, 1 ≤ s.currentFloor → s.currentFloor ≤ s.totalFloors →
      1 ≤ (prevFloor s).currentFloor ∧
      (prevFloor s).currentFloor ≤ (prevFloor s).totalFloors ∧
      1 ≤ (nextFloor s).currentFloor ∧
      (nextFloor s).currentFloor ≤ (nextFloor s).totalFloors) ∧
    (∀ s : ClientState, s.currentFloor ≤ 1 → prevFloor s = s) ∧
    (∀ s : ClientState, 1 < s.currentFloor →
      (prevFloor s).currentFloor = s.currentFloor - 1) ∧
    (∀ s : ClientState, s.totalFloors ≤ s.currentFloor → nextFloor s = s) ∧
    (∀ s : ClientState, s.currentFloor < s.totalFloors →
      (nextFloor s).currentFloor = s.currentFloor + 1) := by
  refine ⟨?_, ?_, ?_, ?_, ?_, ?_⟩
  · intro hsucc hfl hne
    have hlen : 0 < fs.length := List.length_pos.mpr hne
    simp only [handleResponse, hsucc, if_true, hfl]
    refine ⟨by trivial, by trivial, le_refl 1, ?_⟩
    exact_mod_cast hlen
  · intro s h1 h2
    have hp1 : (prevFloor s).currentFloor =
        if s.currentFloor > 1 then s.currentFloor - 1 else s.currentFloor := by
      unfold prevFloor
      split_ifs <;> rfl
    have hp2 : (prevFloor s).totalFloors = s.totalFloors := by
      unfold prevFloor
      split_ifs <;> rfl
    have hn1 : (nextFloor s).currentFloor =
        if s.currentFloor < s.totalFloors then s.currentFloor + 1
        else s.currentFloor := by
      unfold nextFloor
      split_ifs <;> rfl
    have hn2 : (nextFloor s).totalFloors = s.totalFloors := by
      unfold nextFloor
      split_ifs <;> rfl
    rw [hp1, hp2, hn1, hn2]
    split_ifs <;> refine ⟨?_, ?_, ?_, ?_⟩ <;> omega
  · intro s h
    unfold prevFloor
    rw [if_neg (not_lt.mpr h)]
  · intro s h
    unfold prevFloor
    rw [if_pos h]
  · intro s h
    unfold nextFloor
    rw [if_neg (not_lt.mpr h)]
  · intro s h
    unfold nextFloor
    rw [if_pos h]

/-- Witness for C8 at a concrete two-floor response. -/
theorem claim_floor_nav_witness :
    (handleResponse ⟨1, 1, none⟩
        ⟨true, some [default, default], none, none⟩).1.currentFloor = 1 ∧
    (handleResponse ⟨1, 1, none⟩
        ⟨true, some [default, default], none, none⟩).1.totalFloors =
      (([default, default] : List FloorOut).length : Int) ∧
    1 ≤ (handleResponse ⟨1, 1, none⟩
        ⟨true, some [default, default], none, none⟩).1.currentFloor ∧
    (handleResponse ⟨1, 1, none⟩
        ⟨true, some [default, default], none, none⟩).1.currentFloor ≤
      (handleResponse ⟨1, 1, none⟩
        ⟨true, some [default, default], none, none⟩).1.totalFloors :=
  (claim_floor_nav ⟨1, 1, none⟩ ⟨true, some [default, default], none, none⟩
    [default, default]).1 rfl rfl (by simp)

/-- C9: a metrics object with only the building-level output-contract fields
(total_area, total_rooms, floors, average_efficiency) drives updateChart to
the constant dataset [30,40,15,10,5]; in general each slot falls back to its
default whenever its field is absent or zero. -/
theorem claim_chart_defaults (b : BuildingMetrics) (m : ChartMetrics) :
    updateChart (chartFieldsOfBuildingMetrics b) = ⟨30, 40, 15, 10, 5⟩ ∧
    ((m.living_area = none ∨ m.living_area = some 0) →
      (updateChart m).living = 30) ∧
    ((m.bedroom_area = none ∨ m.bedroom_area = some 0) →
      (updateChart m).bedrooms = 40) ∧
    ((m.kitchen_area = none ∨ m.kitchen_area = some 0) →
      (updateChart m).kitchen = 15) ∧
    ((m.bathroom_area = none ∨ m.bathroom_area = some 0) →
      (updateChart m).bathrooms = 10) ∧
    ((m.circulation_area = none ∨ m.circulation_area = some 0) →
      (updateChart m).circulation = 5) := by
  refine ⟨rfl, ?_, ?_, ?_, ?_, ?_⟩ <;> rintro (hx | hx) <;>
    simp [updateChart, jsOrRat, hx]

/-- Witness for C9 at concrete metrics objects. -/
theorem claim_chart_defaults_witness :
    updateChart (chartFieldsOfBuildingMetrics ⟨120, 5, 1, 85⟩) =
      ⟨30, 40, 15, 10, 5⟩ ∧
    (updateChart ⟨none, some 0, none, some 0, none⟩).living = 30 ∧
    (updateChart ⟨none, some 0, none, some 0, none⟩).bedrooms = 40 ∧
    (updateChart ⟨none, some 0, none, some 0, none⟩).kitchen = 15 ∧
    (updateChart ⟨none, some 0, none, some 0, none⟩).bathrooms = 10 ∧
    (updateChart ⟨none, some 0, none, some 0, none⟩).circulation = 5 :=
  have h := claim_chart_defaults ⟨120, 5, 1, 85⟩ ⟨none, some 0, none, some 0, none⟩
  ⟨h.1, h.2.1 (Or.inl rfl), h.2.2.1 (Or.inr rfl), h.2.2.2.1 (Or.inl rfl),
    h.2.2.2.2.1 (Or.inr rfl), h.2.2.2.2.2 (Or.inl rfl)⟩

/-- C10 counterexample: at a client state with currentFloor = 0 and a
one-floor response in place, the guards of renderFloorPlan all pass (the
index check only rejects floorIndex ≥ length, not negative indices) and
floors[-1] is read: an out-of-bounds lookup with no error message. -/
theorem claim_render_guard_cex :
    renderDecision ⟨0, 1, some ⟨true, some [default], none, none⟩⟩ =
      RenderAction.render (-1) ∧ ¬ (0 ≤ (-1 : Int)) :=
  ⟨by decide, by decide⟩

/-- C10 amended: for every client state with currentFloor ≥ 1 (the invariant
the controller maintains), renderFloorPlan reads floors[currentFloor-1] only
when data is present, the floors array is non-empty and the index is valid;
in every other case it shows an error message without touching the array. -/
theorem claim_render_guard (st : ClientState) (hcf : 1 ≤ st.currentFloor) :
    (∀ i, renderDecision st = RenderAction.render i →
      ∃ d fs, st.floorPlanData = some d ∧ d.floors = some fs ∧
        i = st.currentFloor - 1 ∧ 0 ≤ i ∧ i < (fs.length : Int)) ∧
    ((st.floorPlanData = none ∨
        (∃ d, st.floorPlanData = some d ∧ d.floors = none) ∨
        (∃ d, st.floorPlanData = some d ∧ d.floors = some [])) →
      renderDecision st = RenderAction.errNoData) ∧
    (∀ d fs, st.floorPlanData = some d → d.floors = some fs → fs ≠ [] →
      (fs.length : Int) ≤ st.currentFloor - 1 →
      renderDecision st = RenderAction.errInvalidFloor) := by
  obtain ⟨cf, tf, data⟩ := st
  dsimp only at hcf
  refine ⟨?_, ?_, ?_⟩
  · intro i hi
    cases data with
    | none => exact absurd hi (by simp [renderDecision])
    | some d =>
      cases hfs : d.floors with
      | none =>
        unfold renderDecision at hi
        dsimp only at hi
        rw [hfs] at hi
        exact absurd hi (by simp)
      | some fs =>
        unfold renderDecision at hi
        dsimp only at hi
        rw [hfs] at hi
        dsimp only at hi
        split_ifs at hi with hz hb
        all_goals cases hi
        exact ⟨d, fs, rfl, hfs, rfl, by omega, by omega⟩
  · rintro (hd | ⟨d, hd, hfs⟩ | ⟨d, hd, hfs⟩)
    · cases hd
      simp [renderDecision]
    · simp only [Option.some.injEq] at hd
      subst hd
      simp [renderDecision, hfs]
    · simp only [Option.some.injEq] at hd
      subst hd
      simp [renderDecision, hfs]
  · intro d fs hd hfs hne hle
    simp only [Option.some.injEq] at hd
    subst hd
    have hz : fs.length ≠ 0 := fun h => hne (List.length_eq_zero.mp h)
    unfold renderDecision
    dsimp only
    rw [hfs]
    dsimp only
    rw [if_neg hz, if_pos hle]

/-- Witness for C10 at a concrete in-bounds state. -/
theorem claim_render_guard_witness :
    ∃ d fs,
      (ClientState.mk 1 1 (some ⟨true, some [default], none, none⟩)).floorPlanData
          = some d ∧
      d.floors = some fs ∧
      (0 : Int) =
        (ClientState.mk 1 1
          (some ⟨true, some [default], none, none⟩)).currentFloor - 1 ∧
      0 ≤ (0 : Int) ∧ (0 : Int) < (fs.length : Int) :=
  (claim_render_guard ⟨1, 1, some ⟨true, some [default], none, none⟩⟩
    (by decide)).1 0 (by decide)

end Planexa
